import Mathlib

/-!
Verification development for the MALintent intent fuzzer.

The definitions below are a shallow embedding of the Rust sources:
  * `src/intent_input.rs`   — the `IntentInput` data model and its
    shell-command serialization,
  * `src/intent_generator.rs` — the template/seed generator,
  * `src/intent_mutator.rs` — the grammar-aware mutator suite,
  * `src/socket_coverage_observer.rs` — the overall-coverage accumulation
    and the overall-coverage log.

Machine bytes (`u8`) are modelled as `Nat` reduced mod 256 where the byte
width matters; `u32`/`i32`/`i64` arithmetic is carried out on `Nat`/`Int`
with explicit `2 ^ 32` / `2 ^ 64` wrap handling.  Randomness is modelled by
explicit oracle parameters: each mutator receives the values the Rust code
draws from the RNG, and the byte-level havoc stack
(`StdScheduledMutator` over the 24 LibAFL byte mutators) is modelled as an
uninterpreted function `Havoc` from the old buffer to a result flag and a
new buffer.  Rust's `f32` `Display` rendering of finite floats is likewise
modelled as an uninterpreted parameter `FloatRender`; the `Infinity` /
`-Infinity` / `NaN` special cases, which the source handles itself, are
modelled exactly.
-/

/-- `ReceiverType` from `intent_input.rs` (variant order as in the source). -/
inductive ReceiverType where
  | Activity
  | Service
  | BroadcastReceiver
deriving DecidableEq, Repr

/-- `URIScheme` from `intent_input.rs`. -/
inductive URIScheme where
  | Content
  | File
  | Other
deriving DecidableEq, Repr

/-- `Display for URIScheme`: `content`, `file`, and empty for `Other`. -/
def URIScheme.str : URIScheme → String
  | .Content => "content"
  | .File => "file"
  | .Other => ""

/-- `URISuffix` from `intent_input.rs`. -/
inductive URISuffix where
  | AAC | APK | GIF | HTML | JPG | MIDI | MP3 | MP4
  | OGG | PDF | PNG | TXT | WAV | WMA | WMV | XML
deriving DecidableEq, Repr

/-- `Display for URISuffix`. -/
def URISuffix.str : URISuffix → String
  | .AAC => ".aac"
  | .APK => ".apk"
  | .GIF => ".gif"
  | .HTML => ".html"
  | .JPG => ".jpg"
  | .MIDI => ".midi"
  | .MP3 => ".mp3"
  | .MP4 => ".mp4"
  | .OGG => ".ogg"
  | .PDF => ".pdf"
  | .PNG => ".png"
  | .TXT => ".txt"
  | .WAV => ".wav"
  | .WMA => ".wma"
  | .WMV => ".wmv"
  | .XML => ".xml"

/-- `MimeType` from `intent_input.rs` (18 variants). -/
inductive MimeType where
  | ApplicationPdf
  | ApplicationVndAndroidPackageArchive
  | AudioAac
  | AudioMidi
  | AudioMpeg
  | AudioMpeg4Generic
  | AudioOgg
  | AudioWav
  | AudioXMsWma
  | ImageGif
  | ImageJpeg
  | ImagePng
  | TextHtml
  | TextPlain
  | TextXml
  | VideoMp4
  | VideoXMsVideo
  | VideoXMsWmv
deriving DecidableEq, Repr

/-- `Display for MimeType`. -/
def MimeType.str : MimeType → String
  | .ApplicationPdf => "application/pdf"
  | .ApplicationVndAndroidPackageArchive => "application/vnd.android.package-archive"
  | .AudioAac => "audio/aac"
  | .AudioMidi => "audio/midi"
  | .AudioMpeg => "audio/mpeg"
  | .AudioMpeg4Generic => "audio/mpeg4-generic"
  | .AudioOgg => "audio/ogg"
  | .AudioWav => "audio/wav"
  | .AudioXMsWma => "audio/x-ms-wma"
  | .ImageGif => "image/gif"
  | .ImageJpeg => "image/jpeg"
  | .ImagePng => "image/png"
  | .TextHtml => "text/html"
  | .TextPlain => "text/plain"
  | .TextXml => "text/xml"
  | .VideoMp4 => "video/mp4"
  | .VideoXMsVideo => "video/x-msvideo"
  | .VideoXMsWmv => "video/x-ms-wmv"

/-- `URIInput`: a `BytesInput` content plus scheme and suffix. -/
structure URIInput where
  scheme : URIScheme
  suffix : URISuffix
  content : List Nat
deriving DecidableEq, Repr

/-- `DirectInput`: a wrapper around a `BytesInput` byte buffer. -/
structure DirectInput where
  buffer : List Nat
deriving DecidableEq, Repr

/-- `ExtraType` from `intent_input.rs` (15 variants, source order). -/
inductive ExtraType where
  | String (d : DirectInput)
  | Boolean (d : DirectInput)
  | Int (d : DirectInput)
  | Long (d : DirectInput)
  | Float (d : DirectInput)
  | URI (u : URIInput)
  | ComponentName (d : DirectInput)
  | IntArray (d : DirectInput)
  | IntArrayList (d : DirectInput)
  | LongArray (d : DirectInput)
  | LongArrayList (d : DirectInput)
  | FloatArray (d : DirectInput)
  | FloatArrayList (d : DirectInput)
  | StringArray (d : DirectInput)
  | StringArrayList (d : DirectInput)
deriving DecidableEq, Repr

/-- `ExtraInput`: a key together with a typed value. -/
structure ExtraInput where
  key : String
  value : ExtraType
deriving DecidableEq, Repr

/-- `IntentInput` from `intent_input.rs`.  `flags` is `u32`, kept below
`2 ^ 32` by all operations that touch it. -/
structure IntentInput where
  receiver_type : ReceiverType
  component_package : String
  component_class : String
  action : String
  category : String
  data : Option URIInput
  mime_type : MimeType
  flags : Nat
  extras : List ExtraInput
deriving DecidableEq, Repr

/-- `util::encode_hex`: each byte rendered as a backslash-x escape with two
lowercase hex digits, concatenated without separators. -/
def encode_hex (bytes : List Nat) : String :=
  bytes.foldl
    (fun acc b =>
      acc ++ "\\x" ++ String.singleton (Nat.digitChar (b % 256 / 16))
        ++ String.singleton (Nat.digitChar (b % 16)))
    ""

/-- Little-endian value of a byte buffer (each entry reduced mod 256, as the
Rust buffers hold `u8`). -/
def le_value (bytes : List Nat) : Nat :=
  bytes.foldr (fun b acc => b % 256 + 256 * acc) 0

/-- Two's-complement reinterpretation: `i32::from_le_bytes` /
`i64::from_le_bytes` on a buffer whose little-endian value is `u`. -/
def to_signed (bits : Nat) (u : Nat) : Int :=
  if u < 2 ^ (bits - 1) then (u : Int) else (u : Int) - 2 ^ bits

/-- `i32::from_le_bytes` on a (zero-padded) little-endian buffer. -/
def i32_of_le (bytes : List Nat) : Int := to_signed 32 (le_value bytes)

/-- `i64::from_le_bytes` on a (zero-padded) little-endian buffer. -/
def i64_of_le (bytes : List Nat) : Int := to_signed 64 (le_value bytes)

/-- Model of Rust's `f32` `Display` (`value_f32.to_string()`) on a 4-byte
little-endian buffer.  Left uninterpreted: no claim depends on the decimal
rendering of finite floats, and the scalar `Float` arm handles the
infinite/NaN cases itself before calling `to_string`. -/
def FloatRender := List Nat → String

/-- `chunks_of n l` is Rust's `l.chunks(n + 1)`: split `l` into consecutive
chunks of width `n + 1` (the final chunk may be shorter).  The width is
`n + 1` so that the recursion visibly shrinks the list. -/
def chunks_of (n : Nat) : List Nat → List (List Nat)
  | [] => []
  | x :: xs => (x :: xs).take (n + 1) :: chunks_of n (xs.drop n)
termination_by l => l.length
decreasing_by
  simp only [List.length_cons, List.length_drop]
  omega

/-- The `IntArray`/`IntArrayList` arm of `command_args`: 4-byte chunks,
zero-padded, decoded as `i32`, comma-joined; an empty result suppresses
the extra. -/
def int_array_output (buf : List Nat) : Option String :=
  let output := String.intercalate ","
    (((chunks_of 3 buf).map i32_of_le).map toString)
  if output = "" then none else some output

/-- The `LongArray`/`LongArrayList` arm of `command_args`. -/
def long_array_output (buf : List Nat) : Option String :=
  let output := String.intercalate ","
    (((chunks_of 7 buf).map i64_of_le).map toString)
  if output = "" then none else some output

/-- The `FloatArray`/`FloatArrayList` arm of `command_args`: 4-byte chunks,
zero-padded, rendered with `f32` `Display` (the `fr` oracle), comma-joined. -/
def float_array_output (fr : FloatRender) (buf : List Nat) : Option String :=
  let output := String.intercalate ","
    ((chunks_of 3 buf).map
      (fun c => fr (c ++ List.replicate (4 - c.length) 0)))
  if output = "" then none else some output

/-- `URIInput::identifier`: `Other` inlines the hex-escape of the content;
`Content` and `File` build a slot-indexed path. -/
def URIInput.identifier (u : URIInput) (id : Nat) : String :=
  match u.scheme with
  | .Other => encode_hex u.content
  | _ =>
    let path : String :=
      match u.scheme with
      | .Content => "org.gts3.jnifuzz.contentprovider.provider/external_files"
      | .File => "/data/local/tmp"
      | .Other => ""
    u.scheme.str ++ "://" ++ path ++ "/extra_input_" ++ toString id ++ u.suffix.str

/-- Alias for `String`; inside the `ExtraType` namespace the bare name
`String` would resolve to the `ExtraType.String` constructor. -/
abbrev Str := String

/-- `Display for ExtraType`: the short tag used in `--e<tag>`. -/
def ExtraType.tag : ExtraType → Str
  | .String _ => "s"
  | .Boolean _ => "z"
  | .Int _ => "i"
  | .Long _ => "l"
  | .Float _ => "f"
  | .URI _ => "u"
  | .ComponentName _ => "cn"
  | .IntArray _ => "ia"
  | .IntArrayList _ => "ial"
  | .LongArray _ => "la"
  | .LongArrayList _ => "lal"
  | .FloatArray _ => "fa"
  | .FloatArrayList _ => "fal"
  | .StringArray _ => "sa"
  | .StringArrayList _ => "sal"

/-- `ExtraInput::command_args` from `intent_input.rs`.  Mirrors the source
match arm for arm; as in the source, `ComponentName` is the only variant
left to the final catch-all arm, which yields `None`. -/
def ExtraInput.command_args (fr : FloatRender) (self : ExtraInput)
    (index : Nat) : Option String :=
  let arg_string : Option String :=
    match self.value with
    | .URI uri_input => some (uri_input.identifier index)
    | .String d_input => some (encode_hex d_input.buffer)
    | .Boolean d_input =>
      match d_input.buffer.head? with
      | some b => if b % 256 = 0 then some "false" else some "true"
      | none => some "true"
    | .Int d_input =>
      if d_input.buffer.length = 4 then some (toString (i32_of_le d_input.buffer))
      else none
    | .Long d_input =>
      if d_input.buffer.length = 8 then some (toString (i64_of_le d_input.buffer))
      else none
    | .Float d_input =>
      if d_input.buffer.length = 4 then
        let u := le_value d_input.buffer
        if u / 2 ^ 23 % 256 = 255 then
          if u % 2 ^ 23 = 0 then
            if u < 2 ^ 31 then some "Infinity" else some "-Infinity"
          else some "NaN"
        else some (fr d_input.buffer)
      else none
    | .IntArray d_input | .IntArrayList d_input => int_array_output d_input.buffer
    | .LongArray d_input | .LongArrayList d_input => long_array_output d_input.buffer
    | .FloatArray d_input | .FloatArrayList d_input =>
      float_array_output fr d_input.buffer
    | .StringArray d_input | .StringArrayList d_input =>
      let result := d_input.buffer.map (fun byte => if byte % 256 = 0 then 44 else byte % 256)
      let output := encode_hex result
      if output = "" then none else some output
    | _ => none
  arg_string.map (fun v =>
    " --e" ++ self.value.tag ++ " \x27" ++ self.key ++ "\x27 $\x27" ++ v ++ "\x27")

/-- `IntentInput::component`. -/
def IntentInput.component (self : IntentInput) : String :=
  self.component_package ++ "/" ++ self.component_class

/-- The extras fragment of `shell_command`: enumerate, serialize each extra
at its 1-based slot, drop the `None`s, join with single spaces. -/
def IntentInput.extras_command (fr : FloatRender) (self : IntentInput) : String :=
  String.intercalate " "
    (self.extras.enum.filterMap
      (fun p => ExtraInput.command_args fr p.2 (p.1 + 1)))

/-- `IntentInput::shell_command`.  The source builds one string by
successive `write!` appends; concatenation being associative, the same
string is built here as verb-head plus tail.  The source panics on
`Service` ("Unsupported receiver type"); that failure is modelled as
`none`. -/
def IntentInput.shell_command (fr : FloatRender) (self : IntentInput) :
    Option String :=
  match self.receiver_type with
  | .Service => none
  | rt =>
    let am_command := match rt with
      | .Activity => "start"
      | _ => "broadcast"
    let head := "am " ++ am_command
    let base := " -n \x27" ++ self.component ++ "\x27 -a \x27" ++ self.action
      ++ "\x27 -t \x27" ++ self.mime_type.str ++ "\x27 --grant-read-uri-permission "
    let data_part :=
      match self.data with
      | some data => " -d \x27" ++ data.identifier 0 ++ "\x27"
      | none => ""
    let category_part :=
      if self.category = "" then "" else " -c " ++ self.category
    some (head ++ (base ++ data_part ++ category_part ++ " "
      ++ self.extras_command fr))

/-- `IntentTemplate` from `intent_generator.rs`.  The `known_extras_keys`
map is carried as an association list of `(key, type-tag)` pairs. -/
structure IntentTemplate where
  receiver_type : ReceiverType
  component : String
  actions : List String
  categories : List String
  known_extras_keys : List (String × String)
deriving DecidableEq, Repr

/-- Rust's `str::split` on a one-character pattern, over the character
list: split at every occurrence of `c` (an empty input yields `[[]]`, as
in Rust). -/
def split_on_char (c : Char) : List Char → List (List Char)
  | [] => [[]]
  | x :: xs =>
    let r := split_on_char c xs
    if x = c then [] :: r
    else
      match r with
      | [] => [[x]]
      | y :: ys => (x :: y) :: ys

/-- `component.split("/")` as a list of strings. -/
def IntentTemplate.component_parts (self : IntentTemplate) : List String :=
  (split_on_char (Char.ofNat 47) self.component.data).map fun l => String.mk l

/-- `IntentTemplate::package_name`: the part of `component` before the
slash.  The source indexes `split("/")[0]`, which always exists. -/
def IntentTemplate.package_name (self : IntentTemplate) : String :=
  self.component_parts.getD 0 ""

/-- `IntentTemplate::class_name`: the part of `component` after the slash.
The source indexes `split("/")[1]` and would panic on a component without a
slash; `getD` totalises that panic (every template used here has one). -/
def IntentTemplate.class_name (self : IntentTemplate) : String :=
  self.component_parts.getD 1 ""

/-- `IntentTemplate::number_of_intents`. -/
def IntentTemplate.number_of_intents (self : IntentTemplate) : Nat :=
  self.actions.length * max 1 self.categories.length

/-- `IntentTemplate::get_intent_input_for_index`.  The source indexes
`actions[index % actions.len()]` (a panic when `actions` is empty, here
totalised with `getD`) and defaults the category to `""` when
`categories.get(index / max(1, actions.len()))` is out of range. -/
def IntentTemplate.get_intent_input_for_index (self : IntentTemplate)
    (index : Nat) : IntentInput :=
  let action_index := index % self.actions.length
  let category_index := index / max 1 self.actions.length
  { receiver_type := self.receiver_type
    action := self.actions.getD action_index ""
    category := (self.categories[category_index]?).getD ""
    component_package := self.package_name
    component_class := self.class_name
    data := none
    mime_type := .TextPlain
    flags := 0
    extras := [] }

/-- The seeds one template contributes: `IntentGenerator::generate` walks
`(0..t.number_of_intents()).map(|i| t.get_intent_input_for_index(i))`. -/
def IntentTemplate.seeds (self : IntentTemplate) : List IntentInput :=
  (List.range self.number_of_intents).map self.get_intent_input_for_index

/-- The full seed enumeration of `IntentGenerator::generate` across all
loaded templates (the generator serves these one per call via
`read_count`). -/
def IntentGenerator.seeds (templates : List IntentTemplate) : List IntentInput :=
  templates.flatMap IntentTemplate.seeds

/-- `MutationResult` from LibAFL. -/
inductive MutationResult where
  | Mutated
  | Skipped
deriving DecidableEq, Repr

/-- Oracle for the byte-havoc stack (`StdScheduledMutator` over the 24
LibAFL byte mutators backing every `backing_byte_mutator` field): from the
old buffer to the reported result and the new buffer. -/
def Havoc := List Nat → MutationResult × List Nat

/-- The byte-mutator contract: when the scheduled havoc stack reports
`Skipped`, no individual mutator fired, so the buffer is unchanged. -/
def HavocOk (h : Havoc) : Prop :=
  ∀ b, (h b).1 = .Skipped → (h b).2 = b

/-- `ExtraType::content_buffer` (read side): the byte buffer a content
mutation targets — `content` for `URI`, `buffer` for every other variant. -/
def ExtraType.content_buffer : ExtraType → List Nat
  | .URI uri_input => uri_input.content
  | .String d_input => d_input.buffer
  | .Boolean d_input => d_input.buffer
  | .Int d_input => d_input.buffer
  | .Long d_input => d_input.buffer
  | .Float d_input => d_input.buffer
  | .ComponentName d_input => d_input.buffer
  | .IntArray d_input => d_input.buffer
  | .IntArrayList d_input => d_input.buffer
  | .LongArray d_input => d_input.buffer
  | .LongArrayList d_input => d_input.buffer
  | .FloatArray d_input => d_input.buffer
  | .FloatArrayList d_input => d_input.buffer
  | .StringArray d_input => d_input.buffer
  | .StringArrayList d_input => d_input.buffer

/-- `ExtraType::content_buffer` (write side): the source hands out
`&mut BytesInput`; writing through it replaces the buffer and keeps the
variant. -/
def ExtraType.with_content_buffer : ExtraType → List Nat → ExtraType
  | .URI uri_input, b => .URI { uri_input with content := b }
  | .String _, b => .String ⟨b⟩
  | .Boolean _, b => .Boolean ⟨b⟩
  | .Int _, b => .Int ⟨b⟩
  | .Long _, b => .Long ⟨b⟩
  | .Float _, b => .Float ⟨b⟩
  | .ComponentName _, b => .ComponentName ⟨b⟩
  | .IntArray _, b => .IntArray ⟨b⟩
  | .IntArrayList _, b => .IntArrayList ⟨b⟩
  | .LongArray _, b => .LongArray ⟨b⟩
  | .LongArrayList _, b => .LongArrayList ⟨b⟩
  | .FloatArray _, b => .FloatArray ⟨b⟩
  | .FloatArrayList _, b => .FloatArrayList ⟨b⟩
  | .StringArray _, b => .StringArray ⟨b⟩
  | .StringArrayList _, b => .StringArrayList ⟨b⟩

/-- `Vec::resize(n, 0)`: truncate to `n` or zero-pad up to `n`. -/
def resize (l : List Nat) (n : Nat) : List Nat :=
  l.take n ++ List.replicate (n - l.length) 0

/-- `intent_mutator.rs::mutate_content`: apply the havoc stack to the
extra's content buffer; if (and only if) the mutation reports `Mutated`,
re-enforce the per-variant size invariant (`Boolean` to 1 byte, `Int` and
`Float` to 4, `Long` to 8; all other variants untouched). -/
def mutate_content (h : Havoc) (extra : ExtraInput) :
    MutationResult × ExtraInput :=
  let r := h extra.value.content_buffer
  let value := extra.value.with_content_buffer r.2
  let value :=
    if r.1 = .Mutated then
      match value with
      | .Boolean d => .Boolean ⟨resize d.buffer 1⟩
      | .Int d => .Int ⟨resize d.buffer 4⟩
      | .Float d => .Float ⟨resize d.buffer 4⟩
      | .Long d => .Long ⟨resize d.buffer 8⟩
      | v => v
    else value
  (r.1, { extra with value := value })

/-- `intent_mutator.rs::generate_random_extra`: the RNG draws a
`(key, type-tag)` pair from the template's `known_extras_keys` joined with
the common-key table (here the drawn pair is the oracle), builds the
matching variant with an empty buffer; the `URI` variant additionally
rolls a random scheme and suffix; an unrecognized tag falls back to
`Boolean`. -/
def generate_random_extra (key extra_type : String) (scheme : URIScheme)
    (sfx : URISuffix) : ExtraInput :=
  let value : ExtraType :=
    match extra_type with
    | "Boolean" => .Boolean ⟨[]⟩
    | "Float" => .Float ⟨[]⟩
    | "Int" => .Int ⟨[]⟩
    | "Long" => .Long ⟨[]⟩
    | "String" => .String ⟨[]⟩
    | "URI" => .URI { scheme := scheme, suffix := sfx, content := [] }
    | "ComponentName" => .ComponentName ⟨[]⟩
    | "IntArray" => .IntArray ⟨[]⟩
    | "IntArrayList" => .IntArrayList ⟨[]⟩
    | "LongArray" => .LongArray ⟨[]⟩
    | "LongArrayList" => .LongArrayList ⟨[]⟩
    | "FloatArray" => .FloatArray ⟨[]⟩
    | "FloatArrayList" => .FloatArrayList ⟨[]⟩
    | "StringArray" => .StringArray ⟨[]⟩
    | "StringArrayList" => .StringArrayList ⟨[]⟩
    | _ => .Boolean ⟨[]⟩
  { key := key, value := value }

/-- `intent_mutator.rs::get_extra_to_mutate`: `Err` (mapped to `none`) when
there are no extras, otherwise a uniformly drawn index into `extras`
(`rand.between(0, len - 1)`, modelled as the oracle `idx` reduced mod the
length) together with the extra there. -/
def get_extra_to_mutate (idx : Nat) (input : IntentInput) :
    Option (Nat × ExtraInput) :=
  if input.extras.isEmpty then none
  else
    let index := idx % input.extras.length
    (input.extras[index]?).map (fun e => (index, e))

/-- `IntentRandomFlagMutator::mutate`: toggle one of the 8 low bits of
`flags` (`1 << rand.choose(0..8)`); always `Mutated`. -/
def IntentRandomFlagMutator.mutate (b : Fin 8) (input : IntentInput) :
    MutationResult × IntentInput :=
  (.Mutated, { input with flags := input.flags ^^^ (1 <<< b.val) })

/-- The three-way draw (`rand.between(1, 3)`) inside
`IntentRandomDataMutator::mutate` when `data` is present, with the value
the chosen branch then draws. -/
inductive DataChoice where
  | scheme (s : URIScheme)
  | suffix (sfx : URISuffix)
  | content
deriving Repr

/-- `IntentRandomDataMutator::mutate`: with `data` present, reassign the
scheme or the suffix (always `Mutated`) or havoc the content (result of
the havoc stack); with `data` absent, build a fresh `URIInput` with random
scheme/suffix and empty content, havoc that content, install the result
via `get_or_insert`, and report the havoc stack's result. -/
def IntentRandomDataMutator.mutate (c : DataChoice) (s : URIScheme)
    (sfx : URISuffix) (h : Havoc) (input : IntentInput) :
    MutationResult × IntentInput :=
  match input.data with
  | some uri_input =>
    match c with
    | .scheme ns => (.Mutated, { input with data := some { uri_input with scheme := ns } })
    | .suffix nsfx => (.Mutated, { input with data := some { uri_input with suffix := nsfx } })
    | .content =>
      let r := h uri_input.content
      (r.1, { input with data := some { uri_input with content := r.2 } })
  | none =>
    let r := h []
    (r.1, { input with data := some { scheme := s, suffix := sfx, content := r.2 } })

/-- `IntentRandomMimeTypeMutator::mutate`: assign a uniformly drawn mime
type (the oracle `m`); always `Mutated`, even when `m` is the old value. -/
def IntentRandomMimeTypeMutator.mutate (m : MimeType) (input : IntentInput) :
    MutationResult × IntentInput :=
  (.Mutated, { input with mime_type := m })

/-- `IntentRandomAddExtraMutator::mutate`: `Skipped` when 10 or more extras
are present; otherwise push a freshly synthesized extra and run
`mutate_content` on it (the pushed `last_mut` element), reporting the
content mutation's result. -/
def IntentRandomAddExtraMutator.mutate (key ty : String) (s : URIScheme)
    (sfx : URISuffix) (h : Havoc) (input : IntentInput) :
    MutationResult × IntentInput :=
  if input.extras.length ≥ 10 then (.Skipped, input)
  else
    let r := mutate_content h (generate_random_extra key ty s sfx)
    (r.1, { input with extras := input.extras ++ [r.2] })

/-- `IntentRandomExtraKeyMutator::mutate`: replace the key of a randomly
chosen extra with a drawn key (the oracle `key`); `Skipped` when there are
no extras. -/
def IntentRandomExtraKeyMutator.mutate (idx : Nat) (key : String)
    (input : IntentInput) : MutationResult × IntentInput :=
  match get_extra_to_mutate idx input with
  | none => (.Skipped, input)
  | some (j, e) =>
    (.Mutated, { input with extras := input.extras.set j { e with key := key } })

/-- `IntentRandomExtraContentMutator::mutate`: run `mutate_content` on a
randomly chosen extra; `Skipped` when there are no extras. -/
def IntentRandomExtraContentMutator.mutate (idx : Nat) (h : Havoc)
    (input : IntentInput) : MutationResult × IntentInput :=
  match get_extra_to_mutate idx input with
  | none => (.Skipped, input)
  | some (j, e) =>
    let r := mutate_content h e
    (r.1, { input with extras := input.extras.set j r.2 })

/-- `IntentRandomExtraSchemeMutator::mutate`: reassign the scheme of a
randomly chosen extra when it is a `URI`; otherwise `Skipped`. -/
def IntentRandomExtraSchemeMutator.mutate (idx : Nat) (s : URIScheme)
    (input : IntentInput) : MutationResult × IntentInput :=
  match get_extra_to_mutate idx input with
  | none => (.Skipped, input)
  | some (j, e) =>
    match e.value with
    | .URI uri =>
      let e2 : ExtraInput := { e with value := .URI { uri with scheme := s } }
      (.Mutated, { input with extras := input.extras.set j e2 })
    | _ => (.Skipped, input)

/-- `IntentRandomExtraSuffixMutator::mutate`: reassign the suffix of a
randomly chosen extra when it is a `URI`; otherwise `Skipped`. -/
def IntentRandomExtraSuffixMutator.mutate (idx : Nat) (sfx : URISuffix)
    (input : IntentInput) : MutationResult × IntentInput :=
  match get_extra_to_mutate idx input with
  | none => (.Skipped, input)
  | some (j, e) =>
    match e.value with
    | .URI uri =>
      let e2 : ExtraInput := { e with value := .URI { uri with suffix := sfx } }
      (.Mutated, { input with extras := input.extras.set j e2 })
    | _ => (.Skipped, input)

/-- One application of one mutator of the suite, together with everything
its Rust counterpart draws from the RNG. -/
inductive MutStep where
  | flag (b : Fin 8)
  | data (c : DataChoice) (s : URIScheme) (sfx : URISuffix) (h : Havoc)
  | mime (m : MimeType)
  | addExtra (key ty : String) (s : URIScheme) (sfx : URISuffix) (h : Havoc)
  | extraKey (idx : Nat) (key : String)
  | extraContent (idx : Nat) (h : Havoc)
  | extraScheme (idx : Nat) (s : URIScheme)
  | extraSuffix (idx : Nat) (sfx : URISuffix)

/-- Dispatch one mutator application. -/
def MutStep.apply : MutStep → IntentInput → MutationResult × IntentInput
  | .flag b, input => IntentRandomFlagMutator.mutate b input
  | .data c s sfx h, input => IntentRandomDataMutator.mutate c s sfx h input
  | .mime m, input => IntentRandomMimeTypeMutator.mutate m input
  | .addExtra key ty s sfx h, input =>
    IntentRandomAddExtraMutator.mutate key ty s sfx h input
  | .extraKey idx key, input => IntentRandomExtraKeyMutator.mutate idx key input
  | .extraContent idx h, input =>
    IntentRandomExtraContentMutator.mutate idx h input
  | .extraScheme idx s, input => IntentRandomExtraSchemeMutator.mutate idx s input
  | .extraSuffix idx sfx, input => IntentRandomExtraSuffixMutator.mutate idx sfx input

/-- A finite composition of mutator applications (each iteration of the
fuzzing loop applies one scheduled mutator to the input in place). -/
def apply_muts (steps : List MutStep) (input : IntentInput) : IntentInput :=
  steps.foldl (fun i s => (s.apply i).2) input

/-- Whether a step is the `RandomAddExtra` operator. -/
def MutStep.is_add_extra : MutStep → Bool
  | .addExtra _ _ _ _ _ => true
  | _ => false

/-- All havoc oracles carried by a step respect the byte-mutator contract
(`Skipped` means untouched). -/
def MutStep.havoc_ok : MutStep → Prop
  | .data _ _ _ h => HavocOk h
  | .addExtra _ _ _ _ h => HavocOk h
  | .extraContent _ h => HavocOk h
  | _ => True

/-- Whether this step is a `RandomData` application on an input whose
`data` field is absent (the one case where that mutator installs a fresh
`URIInput` regardless of the reported result). -/
def MutStep.installs_data : MutStep → IntentInput → Bool
  | .data _ _ _ _, input => input.data.isNone
  | _, _ => false

/-- The observer state relevant to overall-coverage accounting:
`overall_coverage` (a `MAP_SIZE` byte array, here a list) and
`last_overall_coverage`.  Socket, reader, and `base_observer` are the IO
surface of `socket_coverage_observer.rs` and carry no claim-relevant
state. -/
structure SocketCoverageObserver where
  overall_coverage : List Nat
  last_overall_coverage : Nat
deriving DecidableEq, Repr

/-- Count of nonzero bytes, as in `save_overall_edge_count`. -/
def nonzero_count (l : List Nat) : Nat :=
  (l.filter (fun b => b != 0)).length

/-- `SocketCoverageObserver::save_overall_edge_count`: do nothing when the
nonzero-byte count is at most `last_overall_coverage`, else append
`"<elapsed_secs>: <count>\n"` to the overall-coverage file (the appended
line is returned here).  The receiver is `&self`: this function cannot
write `last_overall_coverage`, and no other line of the source ever
assigns it after its initialisation to `0`. -/
def SocketCoverageObserver.save_overall_edge_count
    (self : SocketCoverageObserver) (elapsed_secs : Nat) : Option String :=
  let overall_coverage := nonzero_count self.overall_coverage
  if overall_coverage ≤ self.last_overall_coverage then none
  else some (toString elapsed_secs ++ ": " ++ toString overall_coverage ++ "\n")

/-- The overall-coverage update of `post_exec`:
`if b != 0 { overall_buffer[i] = b }` for each index of the incoming
buffer. -/
def update_overall (overall buffer : List Nat) : List Nat :=
  List.zipWith (fun o b => if b != 0 then b else o) overall buffer

/-- `SocketCoverageObserver::post_exec`, restricted to a successful
full-size read of `buffer` from the socket: update `overall_coverage`,
leave `last_overall_coverage` as it was (the source never assigns it), and
run `save_overall_edge_count`; the copy into `base_observer` and the
socket traffic are pure IO and are omitted.  Returns the new observer
state and the line appended to the overall-coverage file, if any. -/
def SocketCoverageObserver.post_exec (self : SocketCoverageObserver)
    (buffer : List Nat) (elapsed_secs : Nat) :
    SocketCoverageObserver × Option String :=
  let next : SocketCoverageObserver :=
    { self with overall_coverage := update_overall self.overall_coverage buffer }
  (next, next.save_overall_edge_count elapsed_secs)

/-! ## Shared sample inputs and helper lemmas -/

/-- A concrete instance of the finite-float renderer, for closed instances. -/
def fr0 : FloatRender := fun _ => ""

/-- The template-shaped seed of §8 scenario 2: Activity, component `p/.C`,
action `A`, empty category, no data, `text/plain`, zero flags, no extras. -/
def sample_intent : IntentInput :=
  { receiver_type := .Activity
    component_package := "p"
    component_class := ".C"
    action := "A"
    category := ""
    data := none
    mime_type := .TextPlain
    flags := 0
    extras := [] }

/-- `sample_intent` with a single `Boolean` extra with an empty buffer (the
shape `generate_random_extra` itself produces). -/
def one_bool_intent : IntentInput :=
  { sample_intent with extras := [⟨"k", .Boolean ⟨[]⟩⟩] }

theorem resize_length (l : List Nat) (n : Nat) : (resize l n).length = n := by
  simp [resize, List.length_take]
  omega

theorem with_content_buffer_self (v : ExtraType) :
    v.with_content_buffer v.content_buffer = v := by
  cases v <;> rfl

theorem list_set_self {α : Type _} (l : List α) (j : Nat) (a : α)
    (h : l[j]? = some a) : l.set j a = l := by
  induction l generalizing j with
  | nil => simp at h
  | cons x xs ih =>
    cases j with
    | zero => simp_all
    | succ n => simp_all

theorem get_extra_to_mutate_spec (idx : Nat) (input : IntentInput)
    (h : input.extras ≠ []) :
    get_extra_to_mutate idx input
      = some (idx % input.extras.length,
          input.extras.get
            ⟨idx % input.extras.length,
             Nat.mod_lt _ (List.length_pos.mpr h)⟩) := by
  have hlt : idx % input.extras.length < input.extras.length :=
    Nat.mod_lt _ (List.length_pos.mpr h)
  unfold get_extra_to_mutate
  rw [if_neg (by simpa [List.isEmpty_iff] using h)]
  show Option.map (fun e => (idx % input.extras.length, e))
    input.extras[idx % input.extras.length]? = _
  rw [List.getElem?_eq_getElem hlt]
  rfl

/-! ## C1 — ComponentName extras in the shell command -/

/-- C1 (counterexample): a `ComponentName` extra with buffer `[0x41]` is not
serialized at all — `command_args` yields `None` and the extra leaves no
`--ecn` fragment in `shell_command`, which equals the extras-free command. -/
theorem componentName_hex_escape_cex :
    ExtraInput.command_args fr0 ⟨"k", .ComponentName ⟨[65]⟩⟩ 1 = none
    ∧ IntentInput.shell_command fr0
        { sample_intent with extras := [⟨"k", .ComponentName ⟨[65]⟩⟩] }
      = some "am start -n \x27p/.C\x27 -a \x27A\x27 -t \x27text/plain\x27 --grant-read-uri-permission  " :=
  ⟨rfl, rfl⟩

/-- C1 (amended): for every extra whose value is a `ComponentName` variant,
`command_args` returns `None` — `ComponentName` is the only variant left to
the catch-all `_ => None` arm of the source match — so the extra (key
included) is omitted from `shell_command` and no `--ecn` fragment is ever
emitted. -/
theorem componentName_extra_omitted (fr : FloatRender) (key : String)
    (d : DirectInput) (index : Nat) :
    ExtraInput.command_args fr ⟨key, .ComponentName d⟩ index = none := rfl

/-! ## C3 — overall-coverage log lines -/

/-- C3 (the claim's condition fails on the code): `last_overall_coverage` is
never assigned after its initialisation to `0` (`save_overall_edge_count`
takes `&self`), so once the nonzero-byte count is positive a line is
appended after *every* collection.  Concretely: two successive collections
of the same buffer `[1, 0, 0]` leave the nonzero count unchanged at `1`,
yet the second collection still appends `"6: 1\n"`. -/
theorem overall_line_appended_without_increase :
    (SocketCoverageObserver.post_exec ⟨[0, 0, 0], 0⟩ [1, 0, 0] 5).2
      = some "5: 1\n"
    ∧ nonzero_count
        ((SocketCoverageObserver.post_exec ⟨[0, 0, 0], 0⟩ [1, 0, 0] 5).1.post_exec
          [1, 0, 0] 6).1.overall_coverage
      = nonzero_count
        (SocketCoverageObserver.post_exec ⟨[0, 0, 0], 0⟩ [1, 0, 0] 5).1.overall_coverage
    ∧ (SocketCoverageObserver.post_exec ⟨[0, 0, 0], 0⟩ [1, 0, 0] 5).1.last_overall_coverage
      = 0
    ∧ ((SocketCoverageObserver.post_exec ⟨[0, 0, 0], 0⟩ [1, 0, 0] 5).1.post_exec
        [1, 0, 0] 6).2
      = some "6: 1\n" :=
  ⟨rfl, rfl, rfl, rfl⟩

/-! ## C4 — overall-coverage pointwise update -/

/-- C4 (counterexample): the update is "if nonzero, assign", not `max` —
with `overall_coverage = [5]` and incoming buffer `[3]`, the stored value
decreases from `5` to `3`. -/
theorem overall_coverage_monotone_cex :
    update_overall [5] [3] = [3]
    ∧ ¬ 5 ≤ (update_overall [5] [3]).getD 0 0 := by
  exact ⟨rfl, by decide⟩

/-- C4 (amended): each post-execution update assigns `buffer[i]` whenever
`buffer[i] ≠ 0` and keeps `overall_coverage[i]` otherwise; consequently an
index that is nonzero never returns to zero (the zero/nonzero status is
monotone), but the numeric value at an index can decrease. -/
theorem update_overall_pointwise (ov buf : List Nat) (i : Nat)
    (hi : i < ov.length) (hib : i < buf.length) :
    ((update_overall ov buf).getD i 0
        = if buf.getD i 0 ≠ 0 then buf.getD i 0 else ov.getD i 0)
    ∧ (ov.getD i 0 ≠ 0 → (update_overall ov buf).getD i 0 ≠ 0) := by
  induction ov generalizing buf i with
  | nil => simp at hi
  | cons o os ih =>
    cases buf with
    | nil => simp at hib
    | cons b bs =>
      cases i with
      | zero =>
        constructor
        · by_cases hb : b = 0 <;> simp [update_overall, hb]
        · intro ho
          have ho2 : o ≠ 0 := by simpa using ho
          by_cases hb : b = 0 <;> simp [update_overall, hb, ho2]
      | succ n =>
        have := ih bs n (by simpa using hi) (by simpa using hib)
        simpa [update_overall] using this

/-- C4 (witness): the amended theorem at `ov = [5]`, `buf = [3]`, `i = 0`. -/
theorem update_overall_pointwise_witness :
    ((update_overall [5] [3]).getD 0 0
        = if ([3] : List Nat).getD 0 0 ≠ 0 then ([3] : List Nat).getD 0 0
          else ([5] : List Nat).getD 0 0)
    ∧ (([5] : List Nat).getD 0 0 ≠ 0 → (update_overall [5] [3]).getD 0 0 ≠ 0) :=
  update_overall_pointwise [5] [3] 0 (by decide) (by decide)

/-! ## C9 — shell command shape -/

/-- C9: the concrete §8 scenario-2 input serializes exactly (two trailing
spaces: one from the format string, one before the empty extras join); the
verb is `start` for `Activity` and `broadcast` for `BroadcastReceiver`;
building the command for a `Service` receiver fails. -/
theorem shell_command_shape (fr : FloatRender) (i : IntentInput) :
    IntentInput.shell_command fr sample_intent
      = some "am start -n \x27p/.C\x27 -a \x27A\x27 -t \x27text/plain\x27 --grant-read-uri-permission  "
    ∧ (i.receiver_type = .Activity →
        ∃ rest, IntentInput.shell_command fr i = some ("am start" ++ rest))
    ∧ (i.receiver_type = .BroadcastReceiver →
        ∃ rest, IntentInput.shell_command fr i = some ("am broadcast" ++ rest))
    ∧ (i.receiver_type = .Service → IntentInput.shell_command fr i = none) := by
  refine ⟨rfl, ?_, ?_, ?_⟩
  · intro h
    simp only [IntentInput.shell_command, h]
    exact ⟨_, rfl⟩
  · intro h
    simp only [IntentInput.shell_command, h]
    exact ⟨_, rfl⟩
  · intro h
    simp only [IntentInput.shell_command, h]

/-- C9 (witness): the verb and failure cases at concrete receivers. -/
theorem shell_command_shape_witness :
    (∃ rest, IntentInput.shell_command fr0 sample_intent
      = some ("am start" ++ rest))
    ∧ (∃ rest, IntentInput.shell_command fr0
        { sample_intent with receiver_type := .BroadcastReceiver }
      = some ("am broadcast" ++ rest))
    ∧ IntentInput.shell_command fr0
        { sample_intent with receiver_type := .Service } = none :=
  ⟨(shell_command_shape fr0 sample_intent).2.1 rfl,
   (shell_command_shape fr0 _).2.2.1 rfl,
   (shell_command_shape fr0 _).2.2.2 rfl⟩

/-! ## C10 — wrong-width numeric extras are silently omitted -/

/-- C10: an `Int` or `Float` extra whose buffer is not exactly 4 bytes, and
a `Long` extra whose buffer is not exactly 8 bytes, make `command_args`
return `None` (the `try_into` of the source fails), so the entire extra —
key included — is dropped from the shell command rather than serialized or
rejected. -/
theorem wrong_width_numeric_extra_omitted (fr : FloatRender) (key : String)
    (d : DirectInput) (index : Nat) (i : IntentInput) :
    (d.buffer.length ≠ 4 →
      ExtraInput.command_args fr ⟨key, .Int d⟩ index = none
      ∧ ExtraInput.command_args fr ⟨key, .Float d⟩ index = none
      ∧ IntentInput.shell_command fr { i with extras := [⟨key, .Int d⟩] }
          = IntentInput.shell_command fr { i with extras := [] })
    ∧ (d.buffer.length ≠ 8 →
      ExtraInput.command_args fr ⟨key, .Long d⟩ index = none) := by
  constructor
  · intro h
    have hInt : ∀ j, ExtraInput.command_args fr ⟨key, .Int d⟩ j = none := by
      intro j
      simp [ExtraInput.command_args, h]
    refine ⟨hInt index, by simp [ExtraInput.command_args, h], ?_⟩
    cases hr : i.receiver_type <;>
      simp [IntentInput.shell_command, hr, IntentInput.component,
        IntentInput.extras_command, hInt]
  · intro h
    simp [ExtraInput.command_args, h]

/-- C10 (witness): the empty buffer (length 0) at each numeric variant. -/
theorem wrong_width_numeric_extra_omitted_witness :
    (ExtraInput.command_args fr0 ⟨"k", .Int ⟨[]⟩⟩ 1 = none
      ∧ ExtraInput.command_args fr0 ⟨"k", .Float ⟨[]⟩⟩ 1 = none
      ∧ IntentInput.shell_command fr0 { sample_intent with extras := [⟨"k", .Int ⟨[]⟩⟩] }
          = IntentInput.shell_command fr0 { sample_intent with extras := [] })
    ∧ ExtraInput.command_args fr0 ⟨"k", .Long ⟨[]⟩⟩ 1 = none :=
  ⟨(wrong_width_numeric_extra_omitted fr0 "k" ⟨[]⟩ 1 sample_intent).1 (by decide),
   (wrong_width_numeric_extra_omitted fr0 "k" ⟨[]⟩ 1 sample_intent).2 (by decide)⟩

/-! ## C8 — seed enumeration -/

/-- The §8 scenario-1 template. -/
def tW : IntentTemplate :=
  { receiver_type := .Activity
    component := "p/.C"
    actions := ["A1", "A2"]
    categories := ["C1"]
    known_extras_keys := [] }

/-- C8: the scenario-1 template enumerates exactly the two seeds
`(A1, C1)` and `(A2, C1)`; with no categories it still enumerates two
seeds, both with empty category; in general seed `k` has
`action = actions[k mod |actions|]` and
`category = categories.get(k / max(1, |actions|))` defaulting to `""`, and
the seed count is `|actions| * max(1, |categories|)`. -/
theorem seed_enumeration (t : IntentTemplate) (k : Nat) :
    IntentTemplate.seeds tW
      = [{ sample_intent with action := "A1", category := "C1" },
         { sample_intent with action := "A2", category := "C1" }]
    ∧ IntentTemplate.seeds { tW with categories := [] }
      = [{ sample_intent with action := "A1" },
         { sample_intent with action := "A2" }]
    ∧ t.number_of_intents = t.actions.length * max 1 t.categories.length
    ∧ (IntentGenerator.seeds [t]).length = t.number_of_intents
    ∧ ∀ (h : t.actions ≠ []),
        (t.get_intent_input_for_index k).action
          = t.actions.get
              ⟨k % t.actions.length, Nat.mod_lt _ (List.length_pos.mpr h)⟩
        ∧ (t.get_intent_input_for_index k).category
          = (t.categories[k / max 1 t.actions.length]?).getD "" := by
  refine ⟨by decide, by decide, rfl, ?_, ?_⟩
  · simp [IntentGenerator.seeds, IntentTemplate.seeds]
  · intro h
    have hlt : k % t.actions.length < t.actions.length :=
      Nat.mod_lt _ (List.length_pos.mpr h)
    constructor
    · simp [IntentTemplate.get_intent_input_for_index,
        List.getD_eq_getElem?_getD, List.getElem?_eq_getElem hlt,
        List.get_eq_getElem]
    · rfl

/-- C8 (witness): the general indexing equations at the scenario-1 template
and `k = 3` (wrapping around the two actions). -/
theorem seed_enumeration_witness :
    (tW.get_intent_input_for_index 3).action
      = tW.actions.get ⟨3 % tW.actions.length, by decide⟩
    ∧ (tW.get_intent_input_for_index 3).category
      = (tW.categories[3 / max 1 tW.actions.length]?).getD "" :=
  (seed_enumeration tW 3).2.2.2.2 (by decide)

/-! ## Mutator helper lemmas -/

theorem step_frame (s : MutStep) (i : IntentInput) :
    (s.apply i).2.component_package = i.component_package
    ∧ (s.apply i).2.component_class = i.component_class
    ∧ (s.apply i).2.action = i.action
    ∧ (s.apply i).2.category = i.category := by
  cases s with
  | flag b => simp [MutStep.apply, IntentRandomFlagMutator.mutate]
  | mime m => simp [MutStep.apply, IntentRandomMimeTypeMutator.mutate]
  | data c sc sfx h =>
    cases hd : i.data with
    | some u => cases c <;> simp [MutStep.apply, IntentRandomDataMutator.mutate, hd]
    | none => simp [MutStep.apply, IntentRandomDataMutator.mutate, hd]
  | addExtra key ty sc sfx h =>
    by_cases hl : i.extras.length ≥ 10 <;>
      simp [MutStep.apply, IntentRandomAddExtraMutator.mutate, hl]
  | extraKey idx key =>
    rcases hg : get_extra_to_mutate idx i with _ | ⟨j, e⟩ <;>
      simp [MutStep.apply, IntentRandomExtraKeyMutator.mutate, hg]
  | extraContent idx h =>
    rcases hg : get_extra_to_mutate idx i with _ | ⟨j, e⟩ <;>
      simp [MutStep.apply, IntentRandomExtraContentMutator.mutate, hg]
  | extraScheme idx sc =>
    rcases hg : get_extra_to_mutate idx i with _ | ⟨j, e⟩
    · simp [MutStep.apply, IntentRandomExtraSchemeMutator.mutate, hg]
    · rcases e with ⟨ekey, ev⟩
      cases ev <;> simp [MutStep.apply, IntentRandomExtraSchemeMutator.mutate, hg]
  | extraSuffix idx sfx =>
    rcases hg : get_extra_to_mutate idx i with _ | ⟨j, e⟩
    · simp [MutStep.apply, IntentRandomExtraSuffixMutator.mutate, hg]
    · rcases e with ⟨ekey, ev⟩
      cases ev <;> simp [MutStep.apply, IntentRandomExtraSuffixMutator.mutate, hg]

theorem step_extras_length (s : MutStep) (i : IntentInput)
    (hs : s.is_add_extra = false) :
    (s.apply i).2.extras.length = i.extras.length := by
  cases s with
  | flag b => simp [MutStep.apply, IntentRandomFlagMutator.mutate]
  | mime m => simp [MutStep.apply, IntentRandomMimeTypeMutator.mutate]
  | data c sc sfx h =>
    cases hd : i.data with
    | some u => cases c <;> simp [MutStep.apply, IntentRandomDataMutator.mutate, hd]
    | none => simp [MutStep.apply, IntentRandomDataMutator.mutate, hd]
  | addExtra key ty sc sfx h => simp [MutStep.is_add_extra] at hs
  | extraKey idx key =>
    rcases hg : get_extra_to_mutate idx i with _ | ⟨j, e⟩ <;>
      simp [MutStep.apply, IntentRandomExtraKeyMutator.mutate, hg]
  | extraContent idx h =>
    rcases hg : get_extra_to_mutate idx i with _ | ⟨j, e⟩ <;>
      simp [MutStep.apply, IntentRandomExtraContentMutator.mutate, hg]
  | extraScheme idx sc =>
    rcases hg : get_extra_to_mutate idx i with _ | ⟨j, e⟩
    · simp [MutStep.apply, IntentRandomExtraSchemeMutator.mutate, hg]
    · rcases e with ⟨ekey, ev⟩
      cases ev <;> simp [MutStep.apply, IntentRandomExtraSchemeMutator.mutate, hg]
  | extraSuffix idx sfx =>
    rcases hg : get_extra_to_mutate idx i with _ | ⟨j, e⟩
    · simp [MutStep.apply, IntentRandomExtraSuffixMutator.mutate, hg]
    · rcases e with ⟨ekey, ev⟩
      cases ev <;> simp [MutStep.apply, IntentRandomExtraSuffixMutator.mutate, hg]

theorem addExtra_skipped_at_bound (key ty : String) (sc : URIScheme)
    (sfx : URISuffix) (h : Havoc) (i : IntentInput)
    (hge : 10 ≤ i.extras.length) :
    (MutStep.addExtra key ty sc sfx h).apply i = (.Skipped, i) := by
  simp [MutStep.apply, IntentRandomAddExtraMutator.mutate, hge]

theorem step_extras_le10 (s : MutStep) (i : IntentInput)
    (hi : i.extras.length ≤ 10) : (s.apply i).2.extras.length ≤ 10 := by
  cases hb : s.is_add_extra
  · rw [step_extras_length s i hb]; exact hi
  · cases s <;> simp [MutStep.is_add_extra] at hb
    case addExtra key ty sc sfx h =>
      by_cases hge : 10 ≤ i.extras.length
      · rw [addExtra_skipped_at_bound key ty sc sfx h i hge]; exact hi
      · have hlt : i.extras.length < 10 := by omega
        simp [MutStep.apply, IntentRandomAddExtraMutator.mutate,
          Nat.not_le.mpr hlt]
        omega

/-! ## C5 — extras bound -/

/-- C5: starting from at most 10 extras, any finite mutator composition
keeps `extras.len() ≤ 10`; `RandomAddExtra` at 10 or more extras returns
`Skipped` without appending (leaving the input untouched); and no other
mutator changes the extras count. -/
theorem extras_bound (steps : List MutStep) (i : IntentInput)
    (key ty : String) (sc : URIScheme) (sfx : URISuffix) (h : Havoc)
    (s : MutStep) :
    (i.extras.length ≤ 10 → (apply_muts steps i).extras.length ≤ 10)
    ∧ (10 ≤ i.extras.length →
        (MutStep.addExtra key ty sc sfx h).apply i = (.Skipped, i))
    ∧ (s.is_add_extra = false → (s.apply i).2.extras.length = i.extras.length) := by
  refine ⟨?_, addExtra_skipped_at_bound key ty sc sfx h i,
    step_extras_length s i⟩
  induction steps generalizing i with
  | nil => exact fun hle => hle
  | cons s0 rest ih =>
    intro hle
    exact ih ((s0.apply i).2) (step_extras_le10 s0 i hle)

/-- `sample_intent` with exactly 10 extras. -/
def ten_extras_intent : IntentInput :=
  { sample_intent with
    extras := List.replicate 10 ⟨"k", ExtraType.Boolean ⟨[]⟩⟩ }

/-- C5 (witness): a concrete chain on an input holding exactly 10 extras. -/
theorem extras_bound_witness :
    (apply_muts [MutStep.mime .TextPlain, MutStep.flag 0] ten_extras_intent).extras.length ≤ 10
    ∧ (MutStep.addExtra "k" "Boolean" .Content .AAC (fun b => (.Skipped, b))).apply
        ten_extras_intent = (.Skipped, ten_extras_intent)
    ∧ ((MutStep.mime .TextPlain).apply ten_extras_intent).2.extras.length
        = ten_extras_intent.extras.length :=
  ⟨(extras_bound [MutStep.mime .TextPlain, MutStep.flag 0] ten_extras_intent
      "k" "Boolean" .Content .AAC (fun b => (.Skipped, b)) (.mime .TextPlain)).1
      (by decide),
   (extras_bound [] ten_extras_intent "k" "Boolean" .Content .AAC
      (fun b => (.Skipped, b)) (.mime .TextPlain)).2.1 (by decide),
   (extras_bound [] ten_extras_intent "k" "Boolean" .Content .AAC
      (fun b => (.Skipped, b)) (.mime .TextPlain)).2.2 rfl⟩

/-! ## C6 — component, action, category frame -/

/-- C6: no mutator writes `component_package`, `component_class`, `action`,
or `category`; they are invariant under every finite mutator composition. -/
theorem component_action_category_frame (steps : List MutStep)
    (i : IntentInput) :
    (apply_muts steps i).component_package = i.component_package
    ∧ (apply_muts steps i).component_class = i.component_class
    ∧ (apply_muts steps i).action = i.action
    ∧ (apply_muts steps i).category = i.category := by
  induction steps generalizing i with
  | nil => exact ⟨rfl, rfl, rfl, rfl⟩
  | cons s rest ih =>
    have h1 := step_frame s i
    have h2 := ih (s.apply i).2
    exact ⟨h2.1.trans h1.1, h2.2.1.trans h1.2.1,
      h2.2.2.1.trans h1.2.2.1, h2.2.2.2.trans h1.2.2.2⟩

/-! ## C7 — per-variant buffer sizes after content mutation -/

/-- The per-variant buffer-size invariant `mutate_content` re-enforces:
exactly 1 byte for `Boolean`, 4 for `Int` and `Float`, 8 for `Long`; no
constraint on any other variant. -/
def size_invariant : ExtraType → Prop
  | .Boolean d => d.buffer.length = 1
  | .Int d => d.buffer.length = 4
  | .Float d => d.buffer.length = 4
  | .Long d => d.buffer.length = 8
  | _ => True

/-- The variants whose size `mutate_content` enforces. -/
def size_enforced : ExtraType → Bool
  | .Boolean _ => true
  | .Int _ => true
  | .Float _ => true
  | .Long _ => true
  | _ => false

theorem mutate_content_mutated_spec (h : Havoc) (e : ExtraInput)
    (hm : (mutate_content h e).1 = .Mutated) :
    size_invariant (mutate_content h e).2.value
    ∧ (size_enforced (mutate_content h e).2.value = false →
        (mutate_content h e).2.value.content_buffer
          = (h e.value.content_buffer).2) := by
  rcases hh : h e.value.content_buffer with ⟨rres, nb⟩
  have hm2 : rres = MutationResult.Mutated := by
    simpa [mutate_content, hh] using hm
  subst hm2
  cases hv : e.value <;>
    ( simp only [hv, ExtraType.content_buffer] at hh
      simp [mutate_content, hv, hh, ExtraType.content_buffer,
        ExtraType.with_content_buffer, size_invariant, size_enforced,
        resize_length] )

/-- C7: whenever `RandomExtraContent` reports `Mutated` on an input with at
least one extra, the mutated extra (at the drawn slot) satisfies the
per-variant size invariant — 1 byte for `Boolean`, 4 for `Int`/`Float`, 8
for `Long` — and the buffer of every non-size-enforced variant is exactly
what the byte-havoc stack produced. -/
theorem random_extra_content_size (idx : Nat) (h : Havoc) (i : IntentInput)
    (hne : i.extras ≠ [])
    (hm : (IntentRandomExtraContentMutator.mutate idx h i).1 = .Mutated) :
    ∃ e,
      (IntentRandomExtraContentMutator.mutate idx h i).2.extras
        = i.extras.set (idx % i.extras.length) e
      ∧ size_invariant e.value
      ∧ (size_enforced e.value = false →
          e.value.content_buffer
            = (h (i.extras.get ⟨idx % i.extras.length,
                Nat.mod_lt _ (List.length_pos.mpr hne)⟩).value.content_buffer).2) := by
  have hspec := get_extra_to_mutate_spec idx i hne
  have happ : IntentRandomExtraContentMutator.mutate idx h i
      = ((mutate_content h (i.extras.get ⟨idx % i.extras.length,
            Nat.mod_lt _ (List.length_pos.mpr hne)⟩)).1,
         { i with extras := (i.extras.set (idx % i.extras.length)
            (mutate_content h (i.extras.get ⟨idx % i.extras.length,
              Nat.mod_lt _ (List.length_pos.mpr hne)⟩)).2) }) := by
    simp [IntentRandomExtraContentMutator.mutate, hspec]
  rw [happ] at hm
  obtain ⟨h1, h2⟩ := mutate_content_mutated_spec h _ hm
  exact ⟨_, by rw [happ], h1, h2⟩

/-- C7 (witness): a `Boolean` extra with an empty buffer is resized to
exactly 1 byte by a mutation that reports `Mutated`. -/
theorem random_extra_content_size_witness :
    ∃ e,
      (IntentRandomExtraContentMutator.mutate 0
          (fun b => (.Mutated, b)) one_bool_intent).2.extras
        = one_bool_intent.extras.set (0 % one_bool_intent.extras.length) e
      ∧ size_invariant e.value
      ∧ (size_enforced e.value = false →
          e.value.content_buffer
            = ((fun b => ((.Mutated : MutationResult), b))
                (one_bool_intent.extras.get ⟨0 % one_bool_intent.extras.length,
                  by decide⟩).value.content_buffer).2) :=
  random_extra_content_size 0 (fun b => (.Mutated, b)) one_bool_intent
    (by decide) rfl

/-! ## C2 — mutation result vs. observable change -/

/-- C2 (counterexample): `RandomMimeType` on an input whose mime type is
already `text/plain`, redrawing `text/plain`, reports `Mutated` with the
input byte-for-byte unchanged; and `RandomAddExtra` below the bound whose
byte-havoc stack skips reports `Skipped` after appending a fresh extra —
the input changed. -/
theorem mutate_result_contract_cex :
    (MutStep.mime .TextPlain).apply sample_intent = (.Mutated, sample_intent)
    ∧ ((MutStep.addExtra "k" "Boolean" .Content .AAC
        (fun b => (.Skipped, b))).apply sample_intent).1 = .Skipped
    ∧ ((MutStep.addExtra "k" "Boolean" .Content .AAC
        (fun b => (.Skipped, b))).apply sample_intent).2 ≠ sample_intent :=
  ⟨rfl, rfl, by decide⟩

/-- C2 (amended): a mutator that reports `Skipped` leaves the input
unchanged — except that `RandomAddExtra` below the extras bound appends a
fresh extra, and `RandomData` on an absent `data` field installs a fresh
URI, even when reporting `Skipped` — provided the byte-havoc stack honours
its contract (`Skipped` means untouched).  A `Mutated` report does not
guarantee a change (an enum redraw can pick the old value, as
`RandomMimeType` does); `RandomFlag` however always reports `Mutated` and
always changes `flags`. -/
theorem mutate_result_contract (s : MutStep) (i : IntentInput) (b : Fin 8) :
    (s.havoc_ok → (s.apply i).1 = .Skipped → s.is_add_extra = false →
      s.installs_data i = false → (s.apply i).2 = i)
    ∧ ((MutStep.flag b).apply i).1 = .Mutated
    ∧ ((MutStep.flag b).apply i).2.flags ≠ i.flags := by
  refine ⟨?_, rfl, ?_⟩
  · intro hok hskip hadd hdata
    cases s with
    | flag b2 =>
      simp [MutStep.apply, IntentRandomFlagMutator.mutate] at hskip
    | mime m =>
      simp [MutStep.apply, IntentRandomMimeTypeMutator.mutate] at hskip
    | data c sc sfx h =>
      cases hd : i.data with
      | none => simp [MutStep.installs_data, hd] at hdata
      | some u =>
        cases c with
        | scheme ns =>
          simp [MutStep.apply, IntentRandomDataMutator.mutate, hd] at hskip
        | suffix nsfx =>
          simp [MutStep.apply, IntentRandomDataMutator.mutate, hd] at hskip
        | content =>
          have hres : (h u.content).1 = .Skipped := by
            simpa [MutStep.apply, IntentRandomDataMutator.mutate, hd] using hskip
          have hb : (h u.content).2 = u.content := hok u.content hres
          have hu : ({ u with content := (h u.content).2 } : URIInput) = u := by
            rw [hb]
          simp only [MutStep.apply, IntentRandomDataMutator.mutate, hd, hu]
          rw [← hd]
    | addExtra key ty sc sfx h => simp [MutStep.is_add_extra] at hadd
    | extraKey idx key =>
      rcases hg : get_extra_to_mutate idx i with _ | ⟨j, e⟩
      · simp [MutStep.apply, IntentRandomExtraKeyMutator.mutate, hg]
      · simp [MutStep.apply, IntentRandomExtraKeyMutator.mutate, hg] at hskip
    | extraContent idx h =>
      rcases hg : get_extra_to_mutate idx i with _ | ⟨j, e⟩
      · simp [MutStep.apply, IntentRandomExtraContentMutator.mutate, hg]
      · have hne : i.extras ≠ [] := by
          intro hemp
          rw [get_extra_to_mutate, hemp] at hg
          simp at hg
        have hres : (h e.value.content_buffer).1 = .Skipped := by
          simpa [MutStep.apply, IntentRandomExtraContentMutator.mutate, hg,
            mutate_content] using hskip
        have hb : (h e.value.content_buffer).2 = e.value.content_buffer :=
          hok e.value.content_buffer hres
        have he : (mutate_content h e).2 = e := by
          simp [mutate_content, hres, hb, with_content_buffer_self]
        have hje : i.extras[j]? = some e := by
          rw [get_extra_to_mutate_spec idx i hne] at hg
          simp only [Option.some.injEq, Prod.mk.injEq] at hg
          obtain ⟨hj, hev⟩ := hg
          subst hj
          rw [List.getElem?_eq_getElem (Nat.mod_lt _ (List.length_pos.mpr hne)),
            ← hev]
          rfl
        simp only [MutStep.apply, IntentRandomExtraContentMutator.mutate, hg]
        rw [he, list_set_self i.extras j e hje]
    | extraScheme idx sc =>
      rcases hg : get_extra_to_mutate idx i with _ | ⟨j, e⟩
      · simp [MutStep.apply, IntentRandomExtraSchemeMutator.mutate, hg]
      · rcases e with ⟨ekey, ev⟩
        cases ev <;>
          simp [MutStep.apply, IntentRandomExtraSchemeMutator.mutate, hg] at hskip ⊢
    | extraSuffix idx sfx =>
      rcases hg : get_extra_to_mutate idx i with _ | ⟨j, e⟩
      · simp [MutStep.apply, IntentRandomExtraSuffixMutator.mutate, hg]
      · rcases e with ⟨ekey, ev⟩
        cases ev <;>
          simp [MutStep.apply, IntentRandomExtraSuffixMutator.mutate, hg] at hskip ⊢
  · intro heq
    have heq2 : i.flags ^^^ (1 <<< b.val) = i.flags := heq
    have hx : (1 <<< b.val) = 0 := by
      calc (1 <<< b.val)
          = i.flags ^^^ (i.flags ^^^ (1 <<< b.val)) := by
            rw [← Nat.xor_assoc, Nat.xor_self, Nat.zero_xor]
        _ = i.flags ^^^ i.flags := by rw [heq2]
        _ = 0 := Nat.xor_self _
    rw [Nat.one_shiftLeft] at hx
    have hp : 0 < 2 ^ b.val := Nat.two_pow_pos _
    omega

/-- C2 (witness): a `Skipped` content mutation (havoc skipping honestly)
leaves the one-extra input unchanged, and a flag flip on bit 0 reports
`Mutated` with a changed `flags`. -/
theorem mutate_result_contract_witness :
    ((MutStep.extraContent 0 (fun b => (.Skipped, b))).apply one_bool_intent).2
      = one_bool_intent
    ∧ ((MutStep.flag 0).apply one_bool_intent).1 = .Mutated
    ∧ ((MutStep.flag 0).apply one_bool_intent).2.flags ≠ one_bool_intent.flags :=
  have c := mutate_result_contract
    (.extraContent 0 (fun b => (.Skipped, b))) one_bool_intent 0
  ⟨c.1 (fun _ _ => rfl) rfl rfl rfl, c.2.1, c.2.2⟩
